import Mathlib

/-!
Verification of the mcp-auto-add multi-target configuration adapter.

This file is a shallow embedding of the adapter core of the mcp-auto-add
command-line tool (a Node.js program): the JSON input normalizer
(parseJSONConfig), the validators (validateServerName, validateScope,
validateTransport, validateURL, shellEscape), the Claude command-string
builders, the Gemini argument-vector builder (buildGeminiMCPAddArgs), and
the OpenCode direct-file-write adapter (executeOpenCodeMCPAdd), together
with theorems about their behaviour.

Modelling conventions:
- JavaScript values flowing through the normalizer are modelled by the
  inductive type Json below; absent object properties (undefined) are
  modelled by Option.none at access sites.
- Functions that can throw are modelled in Except String.
- The recursive normalizer carries an explicit fuel parameter (the source
  recursion is on structurally smaller values, so any fuel larger than the
  nesting depth of the input computes the source behaviour; all theorems
  either hold for every fuel or assume one successful run).
- Subprocess execution is modelled by the ProcessLaunch type: execSync on a
  single command string (the shell parses the string) is shellExec;
  spawnSync with a program and argument array (no shell) is spawnArgv.
- The file system interaction of the OpenCode adapter is modelled by FileState
  (absent file, file with invalid JSON, file with a parsed JSON object
  document) and a result record carrying the written state; the interactive
  overwrite confirmation is a Boolean parameter (the answer the inquirer
  prompt would produce; its default in the source is No/false).
-/

namespace MCPAutoAdd

/-- A JSON value as produced by JavaScript JSON.parse: null, booleans,
numbers (integer-valued; no claim depends on float behaviour), strings,
arrays and objects (field lists, in insertion order, unique keys). -/
inductive Json where
  | null
  | bool (b : Bool)
  | num (n : Int)
  | str (s : String)
  | arr (elems : List Json)
  | obj (fields : List (String × Json))

/-- JavaScript truthiness of a JSON value: null, false, 0 and "" are falsy;
arrays and objects are always truthy. -/
def truthy : Json → Bool
  | .null => false
  | .bool b => b
  | .num n => n != 0
  | .str s => s != ""
  | .arr _ => true
  | .obj _ => true

/-- Truthiness of an optional JSON value, where none models undefined
(undefined is falsy). -/
def truthyOpt : Option Json → Bool
  | some v => truthy v
  | none => false

/-- Look up a key in an object field list (first match; JSON.parse output
has unique keys). none models undefined. -/
def getField : List (String × Json) → String → Option Json
  | [], _ => none
  | (k, v) :: rest, key => if k = key then some v else getField rest key

/-- JavaScript property assignment obj[key] = v on an object: an existing
key keeps its position and gets the new value, a new key is appended. -/
def setField : List (String × Json) → String → Json → List (String × Json)
  | [], key, v => [(key, v)]
  | (k0, v0) :: rest, key, v =>
    if k0 = key then (key, v) :: rest else (k0, v0) :: setField rest key v

/-- JavaScript property access parsed.key: a defined object field, or
undefined (none) on every other value (no claim reads array indices or
string methods through this). -/
def jsGet : Json → String → Option Json
  | .obj fields, key => getField fields key
  | _, _ => none

/-- JavaScript a || b on an optionally-undefined a: the value of a when
truthy, otherwise the default. -/
def jsOr (x : Option Json) (d : Json) : Json :=
  match x with
  | some v => if truthy v then v else d
  | none => d

/-- JavaScript s || d for an optionally-undefined string ("" is falsy). -/
def jsOrStr (x : Option String) (d : String) : String :=
  match x with
  | some s => if s = "" then d else s
  | none => d

/-- typeof v === "object" in JavaScript: true for objects, arrays and
null. -/
def isObjectType : Json → Bool
  | .null => true
  | .arr _ => true
  | .obj _ => true
  | _ => false

/-- String(v) / template-literal rendering of a JSON value, with fuel for
the recursion through arrays (JavaScript array toString joins the rendered
elements with commas; null renders as an empty element inside arrays). Used
only inside default description strings, which no claim inspects deeply. -/
def jsToString : Nat → Json → String
  | _, .null => "null"
  | _, .bool b => if b then "true" else "false"
  | _, .num n => toString n
  | _, .str s => s
  | 0, .arr _ => ""
  | fuel + 1, .arr xs =>
    String.intercalate ","
      (xs.map (fun x => match x with | .null => "" | v => jsToString fuel v))
  | _, .obj _ => "[object Object]"

/-- The canonical configuration object built by parseJSONConfig. Each field
is an Option: none models a key that is absent from the returned JavaScript
object (deleted when its value was undefined). isUrlBased is true exactly
when the URL branch produced the object. -/
structure NormalizedConfig where
  command : Option Json := none
  url : Option Json := none
  args : Option Json := none
  env : Option Json := none
  description : Option Json := none
  name : Option Json := none
  cwd : Option Json := none
  enabled : Option Bool := none
  transport : Option Json := none
  isUrlBased : Bool := false
  extractedServerName : Option String := none

/-- The single-key wrapper candidate of parseJSONConfig (line 698 of the
source): a value with exactly one own key whose value has typeof object.
Objects with one field and one-element arrays qualify; a one-character
string has keys of length one but its sole entry is a string, so it never
qualifies. -/
def wrapperEntry : Json → Option (String × Json)
  | .obj [kv] => if isObjectType kv.2 then some kv else none
  | .arr [x] => if isObjectType x then some ("0", x) else none
  | _ => none

/-- The command branch of parseJSONConfig (source lines 731-748): command
and cwd keys are deleted when undefined, args/env/description get defaults
(the description default falls back through parsed.name first), enabled is
parsed.enabled !== false. -/
def parseJSONConfigCommandBranch (j : Json) : NormalizedConfig :=
  { command := jsGet j "command"
    args := some (jsOr (jsGet j "args") (.arr []))
    env := some (jsOr (jsGet j "env") (.obj []))
    description := some (jsOr (jsGet j "description")
      (jsOr (jsGet j "name") (.str "MCP server from JSON")))
    cwd := jsGet j "cwd"
    enabled := some (match jsGet j "enabled" with
      | some (.bool false) => false
      | _ => true) }

/-- The non-wrapper part of parseJSONConfig (source lines 712-748): the URL
branch when parsed.url is truthy, otherwise the command branch. useGemini
is the global target flag read by the source for the default transport.
serverName is the second parameter of parseJSONConfig. -/
def parseJSONConfigBody (fuel : Nat) (useGemini : Bool) (j : Json)
    (serverName : Option String) : NormalizedConfig :=
  match jsGet j "url" with
  | some u =>
    if truthy u then
      { url := some u
        description := some (jsOr (jsGet j "description")
          (.str ("URL-based MCP server: " ++ jsToString fuel u)))
        name := (match jsGet j "name" with
          | some n => if truthy n then some n else serverName.map .str
          | none => serverName.map .str)
        isUrlBased := true
        transport := some (jsOr (jsGet j "transport")
          (.str (if useGemini then "http" else "sse")))
        extractedServerName := (match serverName with
          | some s => if s = "" then none else some s
          | none => none) }
    else parseJSONConfigCommandBranch j
  | none => parseJSONConfigCommandBranch j

/-- parseJSONConfig after JSON.parse succeeded (source lines 694-751),
on the parsed value: the single-key wrapper form recurses into the inner
object recording the outer key as extractedServerName; Object.keys(null)
throws; everything else goes through parseJSONConfigBody. fuel bounds the
wrapper recursion (the source recursion is on a structurally smaller value
each time, so any fuel above the nesting depth is enough). -/
def parseJSONConfig : Nat → Bool → Json → Option String →
    Except String NormalizedConfig
  | 0, _, _, _ => .error "Invalid JSON configuration: recursion limit"
  | _ + 1, _, .null, _ =>
    .error "Invalid JSON configuration: cannot convert null to object"
  | fuel + 1, useGemini, j, serverName =>
    match wrapperEntry j with
    | some (k, inner) =>
      if truthyOpt (jsGet j "command") || truthyOpt (jsGet j "url") then
        .ok (parseJSONConfigBody fuel useGemini j serverName)
      else
        match parseJSONConfig fuel useGemini inner (some k) with
        | .error e => .error ("Invalid JSON configuration: " ++ e)
        | .ok cfg => .ok { cfg with extractedServerName := some k }
    | none => .ok (parseJSONConfigBody fuel useGemini j serverName)

/-- JavaScript String.prototype.trim as used by validateServerName (strips
leading and trailing whitespace). -/
def jsTrim (s : String) : String :=
  ⟨((s.data.dropWhile Char.isWhitespace).reverse.dropWhile
      Char.isWhitespace).reverse⟩

/-- A character allowed by the server-name pattern [a-zA-Z0-9_-]. -/
def isValidNameChar (c : Char) : Bool :=
  c.isAlpha || c.isDigit || c = '_' || c = '-'

/-- validateServerName (source lines 279-294): rejects the empty string,
trims, rejects an all-whitespace name, a name with a character outside
[a-zA-Z0-9_-], or a trimmed length above 64; returns the trimmed name. -/
def validateServerName (name : String) : Except String String :=
  if name = "" then .error "Server name is required"
  else
    let trimmed := jsTrim name
    if trimmed.length = 0 then .error "Server name cannot be empty"
    else if !trimmed.data.all isValidNameChar then
      .error
        "Server name can only contain letters, numbers, hyphens, and underscores"
    else if trimmed.length > 64 then
      .error "Server name exceeds maximum length (64 characters)"
    else .ok trimmed

/-- validateScope (source lines 307-314): the allowed set is
[user, project] when forGemini is true and [user, local, project]
otherwise; a truthy scope outside the set throws; a falsy scope (undefined
or empty) defaults to user. -/
def validateScope (scope : Option String) (forGemini : Bool) :
    Except String String :=
  let validScopes :=
    if forGemini then ["user", "project"] else ["user", "local", "project"]
  match scope with
  | some s =>
    if s ≠ "" && !validScopes.contains s then
      .error ("Invalid scope: " ++ s)
    else .ok (if s = "" then "user" else s)
  | none => .ok "user"

/-- validateTransport (source lines 297-304): a truthy transport outside
[sse, http, stdio] throws; a falsy one defaults to http for Gemini and sse
otherwise. -/
def validateTransport (transport : Option String) (forGemini : Bool) :
    Except String String :=
  let validTransports := ["sse", "http", "stdio"]
  match transport with
  | some t =>
    if t ≠ "" && !validTransports.contains t then
      .error ("Invalid transport type: " ++ t)
    else .ok (if t = "" then (if forGemini then "http" else "sse") else t)
  | none => .ok (if forGemini then "http" else "sse")

/-- ASCII lowercasing of one character (the case-insensitivity of the URL
prefix pattern). -/
def asciiLower (c : Char) : Char :=
  if c.isUpper then Char.ofNat (c.toNat + 32) else c

/-- validateURL (source lines 317-334): a missing or empty URL throws, the
URL must match the case-insensitive pattern for an http:// or https://
prefix. The further new URL(...) well-formedness check of the source (which
only rejects additional inputs) is not modelled; no theorem relies on an
acceptance by validateURL beyond the returned value being the input. -/
def validateURL (url : Option String) : Except String String :=
  match url with
  | none => .error "URL is required"
  | some u =>
    if u = "" then .error "URL is required"
    else if "http://".data.isPrefixOf (u.data.map asciiLower) ∨
        "https://".data.isPrefixOf (u.data.map asciiLower)
    then .ok u
    else .error "URL must start with http:// or https://"

/-- The global replacement of every single quote performed by
shellEscape: each quote becomes the five characters quote,
double-quote, quote, double-quote, quote. -/
def escapeSingleQuotes : List Char → List Char
  | [] => []
  | c :: cs =>
    (if c = '\x27' then "\x27\"\x27\"\x27".data else [c]) ++
      escapeSingleQuotes cs

/-- shellEscape (source lines 337-341): a falsy argument becomes two bare
quotes; otherwise the argument is wrapped in single quotes with every
internal single quote replaced by the quote-doublequote idiom. -/
def shellEscape (arg : String) : String :=
  if arg = "" then "\x27\x27"
  else "\x27" ++ String.mk (escapeSingleQuotes arg.data) ++ "\x27"

/-- The number of single-quote characters in a string (used to state the
length property of shellEscape). -/
def countSingleQuotes (s : String) : Nat :=
  (s.data.filter (fun c => c = '\x27')).length

/-- The local or remote server data the three adapters receive (the object
produced by parseJSONConfig or project auto-detection, at the field types
the adapters consume: a launch command with string arguments and a string
environment, an optional description, and for remote servers a URL and
transport). -/
structure AdapterConfig where
  command : String := ""
  args : List String := []
  env : List (String × String) := []
  description : Option String := none
  url : Option String := none
  transport : Option String := none

/-- JSON string quoting as performed by JSON.stringify on the strings the
adapters serialize (quotes and backslashes escaped, common control
characters escaped; other control characters do not occur in the claims). -/
def escapeJsonChars : List Char → List Char
  | [] => []
  | c :: cs =>
    (if c = '"' then ['\\', '"']
     else if c = '\\' then ['\\', '\\']
     else if c = '\n' then ['\\', 'n']
     else if c = '\r' then ['\\', 'r']
     else if c = '\t' then ['\\', 't']
     else [c]) ++ escapeJsonChars cs

/-- A JSON string literal for s. -/
def quoteJsonString (s : String) : String :=
  "\"" ++ String.mk (escapeJsonChars s.data) ++ "\""

/-- JSON.stringify of a string array. -/
def jsonOfStrList (xs : List String) : String :=
  "[" ++ String.intercalate "," (xs.map quoteJsonString) ++ "]"

/-- JSON.stringify of a string-to-string object. -/
def jsonOfStrPairs (kvs : List (String × String)) : String :=
  "\x7b" ++
    String.intercalate ","
      (kvs.map (fun kv => quoteJsonString kv.1 ++ ":" ++ quoteJsonString kv.2))
    ++ "\x7d"

/-- JSON.stringify of the cleanConfig object built by executeClaudeMCPAdd
(source lines 1184-1191): keys command, args, env, description in that
order; JSON.stringify drops the description key when its value is
undefined. -/
def claudeConfigJson (config : AdapterConfig) : String :=
  "\x7b\"command\":" ++ quoteJsonString config.command ++
    ",\"args\":" ++ jsonOfStrList config.args ++
    ",\"env\":" ++ jsonOfStrPairs config.env ++
    (match config.description with
     | some d => ",\"description\":" ++ quoteJsonString d
     | none => "") ++ "\x7d"

/-- The single command string executeClaudeMCPAdd interpolates and hands to
execSync (source line 1192): the server name, the quoted JSON and the scope
are concatenated into one template literal. No validation is applied to any
of them on this path. -/
def executeClaudeMCPAddCommand (config : AdapterConfig)
    (serverName scope : String) : String :=
  "claude mcp add-json " ++ serverName ++ " \x27" ++ claudeConfigJson config
    ++ "\x27 -s " ++ scope

/-- The single command string executeClaudeMCPAddURL interpolates and hands
to execSync (source lines 1089-1090): transport is config.transport || sse;
the template literal renders an absent url as the text undefined. The scope
parameter of the source function does not occur in the string. -/
def executeClaudeMCPAddURLCommand (config : AdapterConfig)
    (serverName : String) : String :=
  "claude mcp add --transport " ++ jsOrStr config.transport "sse" ++ " " ++
    serverName ++ " " ++
    (match config.url with
     | some u => u
     | none => "undefined")

/-- buildGeminiMCPAddArgs (source lines 1394-1412): validates the name and
the scope (the scope with the default forGemini = false, i.e. against the
Claude allowed-scope set) and builds the spawnSync argument array
[mcp, add, (--scope s when s is not user), name, command, args...]. -/
def buildGeminiMCPAddArgs (config : AdapterConfig)
    (serverName scope : String) : Except String (List String) := do
  let validatedName ← validateServerName serverName
  let validatedScope ← validateScope (some scope) false
  let args := ["mcp", "add"]
  let args := if validatedScope ≠ "user" then args ++ ["--scope", validatedScope]
    else args
  let args := args ++ [validatedName, config.command]
  let args := if config.args.length > 0 then args ++ config.args else args
  pure args

/-- Decidable equality for Except values over decidable components (used
only to evaluate closed witness statements). -/
instance {e a : Type} [DecidableEq e] [DecidableEq a] :
    DecidableEq (Except e a) := fun x y => by
  cases x with
  | error e1 =>
    cases y with
    | error e2 =>
      exact if h : e1 = e2 then isTrue (by rw [h])
        else isFalse (fun hc => h (by injection hc))
    | ok v2 => exact isFalse (fun hc => Except.noConfusion hc)
  | ok v1 =>
    cases y with
    | error e2 => exact isFalse (fun hc => Except.noConfusion hc)
    | ok v2 =>
      exact if h : v1 = v2 then isTrue (by rw [h])
        else isFalse (fun hc => h (by injection hc))

/-- A subprocess launch: execSync hands one command string to a shell that
re-parses it (shellExec); spawnSync hands a program and a list of discrete
argument strings to the process-launch primitive with no shell involved
(spawnArgv). -/
inductive ProcessLaunch where
  | shellExec (commandLine : String)
  | spawnArgv (program : String) (argv : List String)
deriving DecidableEq

/-- The subprocess launch performed by executeClaudeMCPAdd (source line
1228): execSync on the interpolated command string. -/
def claudeLocalLaunch (config : AdapterConfig) (serverName scope : String) :
    ProcessLaunch :=
  .shellExec (executeClaudeMCPAddCommand config serverName scope)

/-- The subprocess launch performed by executeClaudeMCPAddURL (source line
1129): execSync on the interpolated command string. -/
def claudeRemoteLaunch (config : AdapterConfig) (serverName : String)
    (_scope : String) : ProcessLaunch :=
  .shellExec (executeClaudeMCPAddURLCommand config serverName)

/-- The subprocess launch performed by executeGeminiMCPAdd (source lines
1524 and 1576): spawnSync of the gemini program on the validated argument
array. -/
def geminiLocalLaunch (config : AdapterConfig) (serverName scope : String) :
    Except String ProcessLaunch :=
  (buildGeminiMCPAddArgs config serverName scope).map
    (ProcessLaunch.spawnArgv "gemini")

/-- The subprocess launch performed by executeGeminiMCPAddURL (source lines
1420-1479): validates name, scope (again with the forGemini default false),
transport (pre-defaulted to http) and URL, then spawnSync of gemini on
[mcp, add, --transport t, (--scope s when s is not user), name, url]. -/
def geminiRemoteLaunch (config : AdapterConfig) (serverName scope : String) :
    Except String ProcessLaunch := do
  let validatedName ← validateServerName serverName
  let validatedScope ← validateScope (some scope) false
  let validatedTransport ←
    validateTransport (some (jsOrStr config.transport "http")) false
  let validatedURL ← validateURL config.url
  let args := ["mcp", "add", "--transport", validatedTransport]
  let args := if validatedScope ≠ "user" then args ++ ["--scope", validatedScope]
    else args
  let args := args ++ [validatedName, validatedURL]
  pure (.spawnArgv "gemini" args)

/-- Substring test used to exhibit shell-metacharacter payloads inside
concatenated command strings. -/
def occursIn (needle hay : String) : Bool :=
  (List.range (hay.data.length + 1)).any
    (fun i => needle.data.isPrefixOf (hay.data.drop i))

/-- findMCPConfigPath for the Claude target (source lines 528-578): the
candidate paths per scope, taking the first whose parent directory exists
(dirExists models fs.existsSync on directories; home and cwd model
process.env.HOME and process.cwd()). -/
def findMCPConfigPath (scope : String) (home cwd : String)
    (dirExists : String → Bool) : String :=
  if scope = "user" then
    if dirExists (home ++ "/.cursor") then home ++ "/.cursor/mcp.json"
    else if dirExists (home ++ "/.claude") then home ++ "/.claude/mcp.json"
    else home ++ "/.cursor/mcp.json"
  else if scope = "local" then
    if dirExists (cwd ++ "/.cursor") then cwd ++ "/.cursor/mcp.json"
    else if dirExists (cwd ++ "/.vscode") then cwd ++ "/.vscode/mcp.json"
    else cwd ++ "/.cursor/mcp.json"
  else if scope = "project" then cwd ++ "/.mcp.json"
  else home ++ "/.cursor/mcp.json"

/-- What executeClaudeMCPAddURL computes before it shells out (source lines
1086-1122): the execSync command string and the config path it logs. Only
the logged path depends on the scope. -/
structure ClaudeURLPlan where
  command : String
  loggedConfigPath : String

/-- The command string and logged config path of executeClaudeMCPAddURL.
The command string is interpolated on source line 1090, before any use of
scope; scope is used only on line 1121 to compute the logged path. -/
def executeClaudeMCPAddURLPlan (config : AdapterConfig)
    (serverName scope : String) (home cwd : String)
    (dirExists : String → Bool) : ClaudeURLPlan :=
  { command := executeClaudeMCPAddURLCommand config serverName
    loggedConfigPath := findMCPConfigPath scope home cwd dirExists }

/-- findOpenCodeMCPConfigPath (source lines 1621-1641): the user scope maps
to the per-user config directory file, the project scope to a file in the
project root, and every other scope falls through to the user path. -/
def findOpenCodeMCPConfigPath (scope : String) (home cwd : String) : String :=
  if scope = "user" then home ++ "/.config/opencode/opencode.json"
  else if scope = "project" then cwd ++ "/opencode.json"
  else home ++ "/.config/opencode/opencode.json"

/-- convertToOpenCodeFormat (source lines 1644-1684): a truthy url gives a
remote entry (enabled, type remote, url); otherwise a local entry (enabled,
type local, command array [command, args...]); a non-empty env adds an
environment key. Key insertion order follows the source assignments. -/
def convertToOpenCodeFormat (config : AdapterConfig) : Json :=
  let base : List (String × Json) := [("enabled", .bool true)]
  let base :=
    match config.url with
    | some u =>
      if u ≠ "" then base ++ [("type", .str "remote"), ("url", .str u)]
      else base ++ [("type", .str "local"),
        ("command", .arr (.str config.command :: config.args.map .str))]
    | none => base ++ [("type", .str "local"),
        ("command", .arr (.str config.command :: config.args.map .str))]
  let base :=
    if config.env.length > 0 then
      base ++ [("environment", .obj (config.env.map (fun kv => (kv.1, .str kv.2))))]
    else base
  .obj base

/-- The OpenCode config file on disk: absent, present with content that
JSON.parse rejects (raw holds the bytes), or present and parsed as a JSON
object document (the only document shape this tool reads back or writes;
non-object documents take JavaScript edge paths no claim exercises). -/
inductive FileState where
  | absent
  | invalid (raw : String)
  | valid (doc : List (String × Json))

/-- The outcome of one executeOpenCodeMCPAdd run: the reported success, the
resulting file state, the backup file written for a corrupt original (path
and original content), and whether the interactive overwrite confirmation
was shown. -/
structure OpenCodeResult where
  success : Bool
  file : FileState
  backup : Option (String × String)
  prompted : Bool

/-- executeOpenCodeMCPAdd (source lines 1687-1778), non-dry-run path.
Validates the name, validates the scope with forGemini = false (the Claude
allowed-scope set; the source comment on line 1689 notwithstanding, no
Gemini/OpenCode-specific set is applied), resolves the config path, backs
up an unparseable existing file (timestamped with now) and restarts from an
empty document, ensures the $schema and mcp keys, shows the overwrite
confirmation when the entry exists (the source consults no force flag here;
overwriteAnswer is the prompt answer, whose default in the source is
false), and writes the updated document back. Validation failures throw
before any file operation. -/
def executeOpenCodeMCPAdd (config : AdapterConfig) (serverName scope : String)
    (file : FileState) (overwriteAnswer : Bool) (now : Nat)
    (home cwd : String) : Except String OpenCodeResult := do
  let validatedName ← validateServerName serverName
  let validatedScope ← validateScope (some scope) false
  let configPath := findOpenCodeMCPConfigPath validatedScope home cwd
  let entry := convertToOpenCodeFormat config
  let read : List (String × Json) × Option (String × String) :=
    match file with
    | .absent => ([], none)
    | .valid doc => (doc, none)
    | .invalid raw =>
      ([], some (configPath ++ ".backup." ++ toString now, raw))
  let existing := read.1
  let backup := read.2
  let existing :=
    if !truthyOpt (getField existing "$schema") then
      setField existing "$schema" (.str "https://opencode.ai/config.json")
    else existing
  let existing :=
    if !truthyOpt (getField existing "mcp") then
      setField existing "mcp" (.obj [])
    else existing
  match getField existing "mcp" with
  | some (.obj mcpFields) =>
    let entryExists := truthyOpt (getField mcpFields validatedName)
    if entryExists && !overwriteAnswer then
      pure { success := false, file := file, backup := backup,
             prompted := true }
    else
      let newDoc :=
        setField existing "mcp" (.obj (setField mcpFields validatedName entry))
      pure { success := true, file := .valid newDoc, backup := backup,
             prompted := entryExists }
  | _ =>
    -- A truthy non-object mcp value: indexing it yields undefined (no
    -- prompt) and the assignment does not change what is serialized, so the
    -- document is written back as is (non-strict-mode JavaScript).
    pure { success := true, file := .valid existing, backup := backup,
           prompted := false }

/-! ## Theorems -/

/-- C4: validateScope with the Gemini allowed-scope set rejects local,
with the Claude allowed-scope set accepts local and returns it, and an
empty or absent scope yields the default user under either set. -/
theorem validateScope_per_target_behavior :
    (validateScope (some "local") true).isOk = false ∧
    validateScope (some "local") false = .ok "local" ∧
    validateScope none true = .ok "user" ∧
    validateScope none false = .ok "user" ∧
    validateScope (some "") true = .ok "user" ∧
    validateScope (some "") false = .ok "user" :=
  ⟨rfl, rfl, rfl, rfl, rfl, rfl⟩

/-- Length of the single-quote replacement: each single quote grows by four
characters (the five-character replacement for the one removed quote). -/
theorem escapeSingleQuotes_length (l : List Char) :
    (escapeSingleQuotes l).length =
      l.length + 4 * (l.filter (fun c => c = '\x27')).length := by
  induction l with
  | nil => rfl
  | cons c cs ih =>
    by_cases hc : c = '\x27' <;>
      simp [escapeSingleQuotes, hc, List.filter_cons, ih] <;> omega

/-- C5 counterexample: on the three-character string a-quote-b the escaped
result has length 9, not the 8 the claimed formula (two wrapper quotes plus
three extra characters per quote) predicts. -/
theorem shellEscape_length_counterexample :
    (shellEscape "a\x27b").length ≠
      "a\x27b".length + 2 + 3 * countSingleQuotes "a\x27b" := by
  decide

/-- C5 amended: shellEscape wraps its argument in single quotes and
replaces each internal single quote by the five-character POSIX idiom
quote, double-quote, quote, double-quote, quote, so the length is the
argument length plus 2 plus four (not three) per single quote. -/
theorem shellEscape_length (s : String) :
    (shellEscape s).length = s.length + 2 + 4 * countSingleQuotes s := by
  unfold shellEscape
  by_cases h : s = ""
  · subst h; decide
  · simp only [h, if_false]
    have hmk : (String.mk (escapeSingleQuotes s.data)).length =
        s.data.length + 4 * countSingleQuotes s := by
      show (escapeSingleQuotes s.data).length = _
      rw [escapeSingleQuotes_length, countSingleQuotes]
    have hlen : s.length = s.data.length := rfl
    have hq : ("\x27" : String).length = 1 := rfl
    rw [String.length_append, String.length_append, hmk, hq, hlen]
    omega

/-- The non-wrapper branches never set both command and url: the URL branch
leaves command absent and the command branch leaves url absent. -/
theorem parseJSONConfigBody_not_both (fuel : Nat) (ug : Bool) (j : Json)
    (sn : Option String) :
    (parseJSONConfigBody fuel ug j sn).command = none ∨
      (parseJSONConfigBody fuel ug j sn).url = none := by
  unfold parseJSONConfigBody
  split
  · split
    · exact Or.inl rfl
    · exact Or.inr rfl
  · exact Or.inr rfl

/-- C2 amended: a configuration accepted by parseJSONConfig never carries
both a command and a url field (but may, for inputs lacking both, carry
neither). -/
theorem parseJSONConfig_never_both (fuel : Nat) :
    ∀ (ug : Bool) (j : Json) (sn : Option String) (cfg : NormalizedConfig),
      parseJSONConfig fuel ug j sn = .ok cfg →
      cfg.command = none ∨ cfg.url = none := by
  induction fuel with
  | zero =>
    intro ug j sn cfg h
    simp [parseJSONConfig] at h
  | succ n ih =>
    intro ug j sn cfg h
    cases j with
    | null => simp [parseJSONConfig] at h
    | bool b =>
      simp only [parseJSONConfig, wrapperEntry, Except.ok.injEq] at h
      subst h; exact parseJSONConfigBody_not_both n ug (.bool b) sn
    | num m =>
      simp only [parseJSONConfig, wrapperEntry, Except.ok.injEq] at h
      subst h; exact parseJSONConfigBody_not_both n ug (.num m) sn
    | str s =>
      simp only [parseJSONConfig, wrapperEntry, Except.ok.injEq] at h
      subst h; exact parseJSONConfigBody_not_both n ug (.str s) sn
    | arr xs =>
      simp only [parseJSONConfig] at h
      split at h
      next k inner heq =>
        split at h
        · injection h with h
          subst h; exact parseJSONConfigBody_not_both n ug (.arr xs) sn
        · split at h
          · exact Except.noConfusion h
          next cfg0 hr =>
            injection h with h
            subst h
            exact ih ug inner (some k) cfg0 hr
      next heq =>
        injection h with h
        subst h; exact parseJSONConfigBody_not_both n ug (.arr xs) sn
    | obj fs =>
      simp only [parseJSONConfig] at h
      split at h
      next k inner heq =>
        split at h
        · injection h with h
          subst h; exact parseJSONConfigBody_not_both n ug (.obj fs) sn
        · split at h
          · exact Except.noConfusion h
          next cfg0 hr =>
            injection h with h
            subst h
            exact ih ug inner (some k) cfg0 hr
      next heq =>
        injection h with h
        subst h; exact parseJSONConfigBody_not_both n ug (.obj fs) sn

/-- C2 counterexample: the input text consisting of an empty JSON object is
accepted by the normalizer and the resulting configuration has neither a
command nor a url field, refuting the claimed exactly-one invariant. -/
theorem parseJSONConfig_empty_object_neither :
    (parseJSONConfig 1 false (Json.obj []) none).map
        (fun c => (c.command, c.url)) =
      Except.ok ((none : Option Json), (none : Option Json)) :=
  rfl

/-- C2 witness for the amended theorem: applying it to the accepted input
consisting of a command-only object. -/
theorem parseJSONConfig_never_both_witness :
    ({ command := some (Json.str "npx"), args := some (Json.arr []),
       env := some (Json.obj []),
       description := some (Json.str "MCP server from JSON"),
       enabled := some true : NormalizedConfig }).command = none ∨
    ({ command := some (Json.str "npx"), args := some (Json.arr []),
       env := some (Json.obj []),
       description := some (Json.str "MCP server from JSON"),
       enabled := some true : NormalizedConfig }).url = none :=
  parseJSONConfig_never_both 1 false (Json.obj [("command", Json.str "npx")])
    none _ rfl

/-- JavaScript a || d falls through to the default when a is falsy or
undefined. -/
theorem jsOr_of_not_truthy (x : Option Json) (d : Json)
    (h : truthyOpt x = false) : jsOr x d = d := by
  cases x with
  | none => rfl
  | some v =>
    simp only [truthyOpt] at h
    simp [jsOr, h]

/-- When parsed.url is not truthy and parsed.description and parsed.name
are both not truthy, the non-wrapper branch produces the default
description. -/
theorem parseJSONConfigBody_description_default (fuel : Nat) (ug : Bool)
    (j : Json) (sn : Option String)
    (hurl : truthyOpt (jsGet j "url") = false)
    (hdesc : truthyOpt (jsGet j "description") = false)
    (hname : truthyOpt (jsGet j "name") = false) :
    (parseJSONConfigBody fuel ug j sn).description =
      some (Json.str "MCP server from JSON") := by
  unfold parseJSONConfigBody
  cases hju : jsGet j "url" with
  | none =>
    simp only [parseJSONConfigCommandBranch]
    rw [jsOr_of_not_truthy _ _ hname, jsOr_of_not_truthy _ _ hdesc]
  | some u =>
    rw [hju] at hurl
    simp only [truthyOpt] at hurl
    simp only [hurl, Bool.false_eq_true, if_false]
    simp only [parseJSONConfigCommandBranch]
    rw [jsOr_of_not_truthy _ _ hname, jsOr_of_not_truthy _ _ hdesc]

/-- C9 amended: for a parsed input object with a truthy command field and
with url, description and name all absent (or falsy), the normalizer sets
the default description "MCP server from JSON". (The original claim did not
except inputs carrying a name field; the counterexample below shows the
name field takes precedence over the default.) -/
theorem parseJSONConfig_description_default (n : Nat) (ug : Bool) (j : Json)
    (sn : Option String)
    (hcmd : truthyOpt (jsGet j "command") = true)
    (hurl : truthyOpt (jsGet j "url") = false)
    (hdesc : truthyOpt (jsGet j "description") = false)
    (hname : truthyOpt (jsGet j "name") = false) :
    (parseJSONConfig (n + 1) ug j sn).map NormalizedConfig.description =
      Except.ok (some (Json.str "MCP server from JSON")) := by
  cases j with
  | null => simp [jsGet, truthyOpt] at hcmd
  | bool b => simp [jsGet, truthyOpt] at hcmd
  | num m => simp [jsGet, truthyOpt] at hcmd
  | str s => simp [jsGet, truthyOpt] at hcmd
  | arr xs => simp [jsGet, truthyOpt] at hcmd
  | obj fs =>
    simp only [parseJSONConfig]
    have hbody := parseJSONConfigBody_description_default n ug (.obj fs) sn
      hurl hdesc hname
    split
    · simp only [hcmd, Bool.true_or, if_true, Except.map, hbody]
    · simp only [Except.map, hbody]

/-- C9 counterexample: the parsed input object with a command field and a
name field (and neither url nor description) yields the name value, not the
default description "MCP server from JSON". -/
theorem parseJSONConfig_description_name_counterexample :
    (parseJSONConfig 1 false
        (Json.obj [("command", Json.str "npx"), ("name", Json.str "foo")])
        none).map NormalizedConfig.description =
      Except.ok (some (Json.str "foo")) ∧ "foo" ≠ "MCP server from JSON" :=
  ⟨rfl, by decide⟩

/-- C9 witness: applying the amended theorem to the concrete one-field
input object with only a command. -/
theorem parseJSONConfig_description_default_witness :
    (parseJSONConfig 1 false (Json.obj [("command", Json.str "npx")])
        none).map NormalizedConfig.description =
      Except.ok (some (Json.str "MCP server from JSON")) :=
  parseJSONConfig_description_default 0 false
    (Json.obj [("command", Json.str "npx")]) none rfl rfl rfl rfl

/-- C6: for a local spec, an already-valid server name and a Gemini-legal
scope, the Gemini local-registration argument vector is [mcp, add], then
the --scope flag exactly when the scope is not user, then the name, the
command and the trailing arguments, with no embedded JSON. -/
theorem buildGeminiMCPAddArgs_shape (cfg : AdapterConfig)
    (name scope : String)
    (hname : validateServerName name = .ok name)
    (hscope : scope = "user" ∨ scope = "project") :
    buildGeminiMCPAddArgs cfg name scope =
      .ok (["mcp", "add"] ++
        (if scope ≠ "user" then ["--scope", scope] else []) ++
        [name, cfg.command] ++ cfg.args) := by
  have hsc : validateScope (some scope) false = .ok scope := by
    rcases hscope with h | h <;> subst h <;> rfl
  unfold buildGeminiMCPAddArgs
  rw [hname, hsc]
  simp only [Bind.bind, Except.bind, Pure.pure, Except.pure, Except.ok.injEq]
  rcases hscope with h | h <;> subst h <;>
    cases cfg.args <;> simp

/-- C6 witness: the amended-free theorem applied at a concrete local spec,
name tool and scope project. -/
theorem buildGeminiMCPAddArgs_shape_witness :
    buildGeminiMCPAddArgs
        { command := "npx", args := ["-y", "tool"] } "tool" "project" =
      .ok (["mcp", "add"] ++
        (if "project" ≠ "user" then ["--scope", "project"] else []) ++
        ["tool", "npx"] ++ ["-y", "tool"]) :=
  buildGeminiMCPAddArgs_shape { command := "npx", args := ["-y", "tool"] }
    "tool" "project" rfl (Or.inr rfl)

/-- C3 counterexample: given scope local, neither the Gemini argument
builder nor the OpenCode adapter fails with a validation error — both
proceed (and the OpenCode adapter resolves the local scope to the user
config path), refuting the claim that both block scope local. -/
theorem adapters_accept_local_scope :
    (buildGeminiMCPAddArgs { command := "npx" } "srv" "local").isOk = true ∧
    (executeOpenCodeMCPAdd { command := "npx" } "srv" "local"
        FileState.absent false 0 "/home/u" "/proj").isOk = true ∧
    buildGeminiMCPAddArgs { command := "npx" } "srv" "local" =
      .ok ["mcp", "add", "--scope", "local", "srv", "npx"] ∧
    findOpenCodeMCPConfigPath "local" "/home/u" "/proj" =
      "/home/u/.config/opencode/opencode.json" :=
  ⟨rfl, rfl, rfl, rfl⟩

/-- C3 amended: both the Gemini argument builder and the OpenCode adapter
do validate the requested scope before any subprocess call or file
operation, but against the Claude allowed-scope set [user, local, project]
(validateScope is called with forGemini = false on both paths), so scope
local is accepted by both instead of raising a validation error; a scope
outside the Claude set still blocks both operations before any side
effect. -/
theorem adapters_validate_scope_with_claude_set (cfg : AdapterConfig)
    (name scope : String) (file : FileState) (ans : Bool) (now : Nat)
    (home cwd : String)
    (hname : (validateServerName name).isOk = true) :
    (buildGeminiMCPAddArgs cfg name scope).isOk =
        (validateScope (some scope) false).isOk ∧
    (executeOpenCodeMCPAdd cfg name scope file ans now home cwd).isOk =
        (validateScope (some scope) false).isOk := by
  cases hv : validateServerName name with
  | error e =>
    rw [hv] at hname
    exact absurd hname (by simp [Except.isOk, Except.toBool])
  | ok vn =>
    constructor
    · unfold buildGeminiMCPAddArgs
      rw [hv]
      cases hs : validateScope (some scope) false <;>
        simp [Bind.bind, Except.bind, Pure.pure, Except.pure, Except.isOk,
          Except.toBool]
    · unfold executeOpenCodeMCPAdd
      rw [hv]
      cases hs : validateScope (some scope) false with
      | error e => rfl
      | ok vs =>
        simp only [Bind.bind, Except.bind]
        cases file <;>
          (dsimp only; split <;> first
            | rfl
            | (split <;> rfl))

/-- C3 witness: the amended theorem applied at a concrete name and the
scope local, which both adapters accept. -/
theorem adapters_validate_scope_with_claude_set_witness :
    (buildGeminiMCPAddArgs { command := "npx" } "srv" "local").isOk =
        (validateScope (some "local") false).isOk ∧
    (executeOpenCodeMCPAdd { command := "npx" } "srv" "local"
        FileState.absent false 0 "/h" "/p").isOk =
        (validateScope (some "local") false).isOk :=
  adapters_validate_scope_with_claude_set { command := "npx" } "srv" "local"
    FileState.absent false 0 "/h" "/p" rfl

/-- C10: the command string built by executeClaudeMCPAddURL is exactly
claude mcp add --transport t name url, for every scope — the scope (and the
file-existence environment) only varies the logged config path, never the
command. -/
theorem executeClaudeMCPAddURL_scope_invariant (cfg : AdapterConfig)
    (name scope1 scope2 : String) (home1 cwd1 home2 cwd2 : String)
    (d1 d2 : String → Bool) (url : String) (hurl : cfg.url = some url) :
    (executeClaudeMCPAddURLPlan cfg name scope1 home1 cwd1 d1).command =
      "claude mcp add --transport " ++ jsOrStr cfg.transport "sse" ++ " " ++
        name ++ " " ++ url ∧
    (executeClaudeMCPAddURLPlan cfg name scope1 home1 cwd1 d1).command =
      (executeClaudeMCPAddURLPlan cfg name scope2 home2 cwd2 d2).command := by
  constructor
  · simp [executeClaudeMCPAddURLPlan, executeClaudeMCPAddURLCommand, hurl]
  · rfl

/-- C10 witness: the theorem applied at a concrete remote config, with two
different scopes. -/
theorem executeClaudeMCPAddURL_scope_invariant_witness :
    (executeClaudeMCPAddURLPlan
        { url := some "https://gitmcp.io/docs", transport := some "sse" }
        "gitmcp" "user" "/h" "/p" (fun _ => false)).command =
      "claude mcp add --transport " ++
        jsOrStr (some "sse") "sse" ++ " " ++ "gitmcp" ++ " " ++
        "https://gitmcp.io/docs" ∧
    (executeClaudeMCPAddURLPlan
        { url := some "https://gitmcp.io/docs", transport := some "sse" }
        "gitmcp" "user" "/h" "/p" (fun _ => false)).command =
      (executeClaudeMCPAddURLPlan
        { url := some "https://gitmcp.io/docs", transport := some "sse" }
        "gitmcp" "project" "/h2" "/p2" (fun _ => true)).command :=
  executeClaudeMCPAddURL_scope_invariant
    { url := some "https://gitmcp.io/docs", transport := some "sse" }
    "gitmcp" "user" "project" "/h" "/p" "/h2" "/p2"
    (fun _ => false) (fun _ => true) "https://gitmcp.io/docs" rfl

/-- A successful validateServerName returns the trimmed input. -/
theorem validateServerName_ok_trim (name v : String)
    (h : validateServerName name = .ok v) : v = jsTrim name := by
  simp only [validateServerName] at h
  split at h
  · exact Except.noConfusion h
  · split at h
    · exact Except.noConfusion h
    · split at h
      · exact Except.noConfusion h
      · split at h
        · exact Except.noConfusion h
        · injection h with h
          exact h.symm

/-- A successful Gemini argument build contains the validated (trimmed)
server name as one discrete element. -/
theorem buildGeminiMCPAddArgs_mem_name (cfg : AdapterConfig)
    (name scope : String) (argv : List String)
    (h : buildGeminiMCPAddArgs cfg name scope = .ok argv) :
    jsTrim name ∈ argv := by
  unfold buildGeminiMCPAddArgs at h
  cases hv : validateServerName name with
  | error e => rw [hv] at h; simp [Bind.bind, Except.bind] at h
  | ok vn =>
    rw [hv] at h
    cases hs : validateScope (some scope) false with
    | error e => rw [hs] at h; simp [Bind.bind, Except.bind] at h
    | ok vs =>
      rw [hs] at h
      simp only [Bind.bind, Except.bind, Pure.pure, Except.pure,
        Except.ok.injEq] at h
      subst h
      rw [← validateServerName_ok_trim name vn hv]
      split <;> split <;> simp

/-- C1 amended: the Gemini local and remote registration paths hand
spawnSync an argument array in which the validated server name (and, for
the remote path, the validated URL) is a single discrete element, with no
shell involved; the Claude local and remote registration paths instead
interpolate the raw server name, the config JSON, the scope and the raw URL
into one command string handed to the shell via execSync. -/
theorem registration_launch_paths (cfg : AdapterConfig)
    (name scope : String) :
    (∀ argv, buildGeminiMCPAddArgs cfg name scope = .ok argv →
      geminiLocalLaunch cfg name scope =
          .ok (.spawnArgv "gemini" argv) ∧ jsTrim name ∈ argv) ∧
    (∀ l, geminiRemoteLaunch cfg name scope = .ok l →
      ∃ argv u, l = .spawnArgv "gemini" argv ∧
        validateURL cfg.url = .ok u ∧ jsTrim name ∈ argv ∧ u ∈ argv) ∧
    claudeLocalLaunch cfg name scope =
      .shellExec ("claude mcp add-json " ++ name ++ " \x27" ++
        claudeConfigJson cfg ++ "\x27 -s " ++ scope) ∧
    claudeRemoteLaunch cfg name scope =
      .shellExec ("claude mcp add --transport " ++
        jsOrStr cfg.transport "sse" ++ " " ++ name ++ " " ++
        (match cfg.url with | some u => u | none => "undefined")) := by
  refine ⟨?_, ?_, rfl, rfl⟩
  · intro argv h
    refine ⟨?_, buildGeminiMCPAddArgs_mem_name cfg name scope argv h⟩
    unfold geminiLocalLaunch
    rw [h]
    rfl
  · intro l h
    unfold geminiRemoteLaunch at h
    cases hv : validateServerName name with
    | error e => rw [hv] at h; simp [Bind.bind, Except.bind] at h
    | ok vn =>
      rw [hv] at h
      cases hs : validateScope (some scope) false with
      | error e => rw [hs] at h; simp [Bind.bind, Except.bind] at h
      | ok vs =>
        rw [hs] at h
        cases ht : validateTransport (some (jsOrStr cfg.transport "http"))
            false with
        | error e => rw [ht] at h; simp [Bind.bind, Except.bind] at h
        | ok vt =>
          rw [ht] at h
          cases hu : validateURL cfg.url with
          | error e => rw [hu] at h; simp [Bind.bind, Except.bind] at h
          | ok vu =>
            rw [hu] at h
            simp only [Bind.bind, Except.bind, Pure.pure, Except.pure,
              Except.ok.injEq] at h
            refine ⟨_, vu, h.symm, rfl, ?_, ?_⟩
            · rw [← validateServerName_ok_trim name vn hv]
              split <;> simp
            · split <;> simp

/-- C1 counterexample: with a URL carrying shell metacharacters, the Claude
remote registration hands the shell one concatenated command string that
embeds the payload — not an argument array for a no-shell primitive. -/
theorem claude_remote_launch_shell_counterexample :
    claudeRemoteLaunch { url := some "http://a; rm -rf /" } "srv" "user" =
      ProcessLaunch.shellExec
        "claude mcp add --transport sse srv http://a; rm -rf /" ∧
    occursIn "; rm -rf /"
        "claude mcp add --transport sse srv http://a; rm -rf /" = true ∧
    (∀ p argv, claudeRemoteLaunch { url := some "http://a; rm -rf /" }
        "srv" "user" ≠ ProcessLaunch.spawnArgv p argv) :=
  ⟨rfl, by decide, fun p argv h => ProcessLaunch.noConfusion h⟩

/-- C1 witness: the amended theorem applied at a concrete local spec and a
concrete remote spec. -/
theorem registration_launch_paths_witness :
    (geminiLocalLaunch { command := "npx", url := some "https://x.example/mcp" }
        "tool" "user" =
      .ok (.spawnArgv "gemini" ["mcp", "add", "tool", "npx"]) ∧
      jsTrim "tool" ∈ ["mcp", "add", "tool", "npx"]) ∧
    (∃ argv u,
      (ProcessLaunch.spawnArgv "gemini"
        ["mcp", "add", "--transport", "http", "tool",
          "https://x.example/mcp"]) = ProcessLaunch.spawnArgv "gemini" argv ∧
      validateURL ({ command := "npx", url := some "https://x.example/mcp" :
          AdapterConfig }).url = .ok u ∧
      jsTrim "tool" ∈ argv ∧ u ∈ argv) :=
  ⟨(registration_launch_paths
      { command := "npx", url := some "https://x.example/mcp" }
      "tool" "user").1 _ rfl,
   (registration_launch_paths
      { command := "npx", url := some "https://x.example/mcp" }
      "tool" "user").2.1 _ (by decide)⟩

/-- C8: on a config file whose content JSON.parse rejects, a non-dry-run
OpenCode registration writes a timestamped backup holding the original
content and a fresh document whose mcp container holds only the new entry,
plus the top-level schema marker. -/
theorem executeOpenCodeMCPAdd_corrupt_recovery (cfg : AdapterConfig)
    (name scope vn vs raw : String) (ans : Bool) (now : Nat)
    (home cwd : String)
    (hname : validateServerName name = .ok vn)
    (hscope : validateScope (some scope) false = .ok vs) :
    executeOpenCodeMCPAdd cfg name scope (.invalid raw) ans now home cwd =
      .ok { success := true,
            file := .valid
              [("$schema", .str "https://opencode.ai/config.json"),
               ("mcp", .obj [(vn, convertToOpenCodeFormat cfg)])],
            backup := some (findOpenCodeMCPConfigPath vs home cwd ++
              ".backup." ++ toString now, raw),
            prompted := false } := by
  unfold executeOpenCodeMCPAdd
  rw [hname, hscope]
  rfl

/-- C8 witness: the theorem applied to a concrete corrupt file and local
spec. -/
theorem executeOpenCodeMCPAdd_corrupt_recovery_witness :
    executeOpenCodeMCPAdd { command := "npx", args := ["-y", "x"] } "srv"
        "project" (.invalid "not json") false 42 "/h" "/p" =
      .ok { success := true,
            file := .valid
              [("$schema", .str "https://opencode.ai/config.json"),
               ("mcp", .obj [("srv", convertToOpenCodeFormat
                 { command := "npx", args := ["-y", "x"] })])],
            backup := some (findOpenCodeMCPConfigPath "project" "/h" "/p" ++
              ".backup." ++ toString 42, "not json"),
            prompted := false } :=
  executeOpenCodeMCPAdd_corrupt_recovery { command := "npx", args := ["-y", "x"] }
    "srv" "project" "srv" "project" "not json" false 42 "/h" "/p" rfl rfl

/-- The document on disk after adding the local spec npx -y tool under the
name tool to an absent OpenCode config. -/
def openCodeDocAfterToolAdd : List (String × Json) :=
  [("$schema", .str "https://opencode.ai/config.json"),
   ("mcp", .obj [("tool", .obj
     [("enabled", .bool true), ("type", .str "local"),
      ("command", .arr [.str "npx", .str "-y", .str "tool"])])])]

/-- C7: executeOpenCodeMCPAdd consults no force flag. The first
registration of a fresh name succeeds without the overwrite confirmation;
re-registering the same local spec under the same name triggers the
interactive confirmation regardless of --force, and with the default
prompt answer (No) the second registration fails instead of overwriting.
When the user answers Yes the rewritten document — hence the serialized
mcp.tool entry — is identical to the first write, so the byte-identity part
of the claim holds only behind the prompt the claim says is skipped. -/
theorem opencode_force_overwrite_prompts_anyway :
    executeOpenCodeMCPAdd { command := "npx", args := ["-y", "tool"] } "tool"
        "user" .absent false 0 "/h" "/p" =
      .ok { success := true, file := .valid openCodeDocAfterToolAdd,
            backup := none, prompted := false } ∧
    executeOpenCodeMCPAdd { command := "npx", args := ["-y", "tool"] } "tool"
        "user" (.valid openCodeDocAfterToolAdd) false 0 "/h" "/p" =
      .ok { success := false, file := .valid openCodeDocAfterToolAdd,
            backup := none, prompted := true } ∧
    executeOpenCodeMCPAdd { command := "npx", args := ["-y", "tool"] } "tool"
        "user" (.valid openCodeDocAfterToolAdd) true 0 "/h" "/p" =
      .ok { success := true, file := .valid openCodeDocAfterToolAdd,
            backup := none, prompted := true } :=
  ⟨rfl, rfl, rfl⟩

end MCPAutoAdd
